import Mathlib

/-!
# PrivacyBadgerFHE — contract model and verification

Shallow embedding of `src/contracts/PrivacyBadgerExtension.sol`.

Modelling conventions:
* `euint32` / `ebool` ciphertexts are modelled by their `bytes32` handles, as
  natural numbers; `FHE.toBytes32` is the identity on handles,
  `FHE.asEuint32` / `FHE.asEbool` build a trivial ciphertext whose handle is
  the (range-reduced) plaintext.
* `address` is modelled as `Nat`; Solidity mappings become total functions
  with the zero value as default.
* `block.timestamp` and `msg.sender` are explicit parameters.
* `FHE.checkSignatures` is modelled by an oracle
  `sigOk : Nat → List Nat → List Nat → Bool` passed to the callbacks; the
  Solidity `revert` semantics of a failed call are modelled by
  `Except`: an `Except.error` outcome leaves the pre-state in force
  (`applyTx`).
* `bytes` payloads are modelled as lists of 32-byte ABI words
  (`List Nat`); `abi.decode` becomes an explicit partial decoder.
-/

/-- Error kinds of the protocol (spec §7 taxonomy plus the decode failure a
Solidity `abi.decode` revert produces). -/
inductive PBError where
  | RuleNotFound
  | NotProcessed
  | StaleRequest
  | InvalidProof
  | Unauthorized
  | DecodeError
deriving DecidableEq, Repr

/-- A ciphertext handle (the `bytes32` that identifies an `euint32`/`ebool`). -/
abbrev Ciphertext := Nat

/-- `FHE.toBytes32`: the handle of a ciphertext. -/
def toBytes32 (c : Ciphertext) : Nat := c

/-- `FHE.asEuint32`: trivial encryption of a `uint32` plaintext; the handle is
the range-reduced plaintext. -/
def asEuint32 (v : Nat) : Ciphertext := v % 2 ^ 32

/-- `FHE.asEbool`: trivial encryption of a boolean plaintext. -/
def asEbool (b : Bool) : Ciphertext := if b then 1 else 0

/-- `struct EncryptedRule` of the contract. -/
structure EncryptedRule where
  encryptedDomainPattern : Ciphertext
  encryptedPathPattern : Ciphertext
  encryptedRuleType : Ciphertext
  timestamp : Nat
deriving DecidableEq, Repr

/-- `struct MatchResult` of the contract. -/
structure MatchResult where
  encryptedMatchScore : Ciphertext
  encryptedShouldBlock : Ciphertext
  isProcessed : Bool
deriving DecidableEq, Repr

/-- The mapping default for `filteringRules`. -/
def zeroRule : EncryptedRule :=
  { encryptedDomainPattern := 0, encryptedPathPattern := 0
    encryptedRuleType := 0, timestamp := 0 }

/-- The mapping default for `matchResults`. -/
def zeroMatch : MatchResult :=
  { encryptedMatchScore := 0, encryptedShouldBlock := 0, isProcessed := false }

/-- The storage of `PrivacyBadgerExtension`. -/
structure ContractState where
  ruleCount : Nat
  filteringRules : Nat → EncryptedRule
  matchResults : Nat → MatchResult
  lastUpdateTimestamp : Nat
  lastSyncTimestamps : Nat → Nat

/-- The state right after deployment: all storage zeroed. -/
def pbInit : ContractState :=
  { ruleCount := 0, filteringRules := fun _ => zeroRule
    matchResults := fun _ => zeroMatch
    lastUpdateTimestamp := 0, lastSyncTimestamps := fun _ => 0 }

/-- Revert semantics of a transaction: an `Except.error` outcome leaves the
pre-state unchanged. -/
def applyTx (s : ContractState) (r : Except PBError ContractState) : ContractState :=
  match r with
  | .ok s' => s'
  | .error _ => s

/-- Whether a transaction succeeded. -/
def isOk (r : Except PBError ContractState) : Bool :=
  match r with
  | .ok _ => true
  | .error _ => false

/-- The `onlyMaintainer` modifier. Its body in the source is empty — the
`require(maintainers[msg.sender], "Unauthorized")` is present only as a
comment — so it admits every caller. -/
def onlyMaintainerPasses (_sender : Nat) (_s : ContractState) : Bool :=
  true

/-- `addFilteringRule(domainPattern, pathPattern, ruleType)`. -/
def addFilteringRule (sender now : Nat) (domainPattern pathPattern ruleType : Ciphertext)
    (s : ContractState) : Except PBError ContractState :=
  if onlyMaintainerPasses sender s then
    let newId := s.ruleCount + 1
    .ok { s with
      ruleCount := newId
      filteringRules := fun i =>
        if i = newId then
          { encryptedDomainPattern := domainPattern
            encryptedPathPattern := pathPattern
            encryptedRuleType := ruleType
            timestamp := now }
        else s.filteringRules i
      lastUpdateTimestamp := now }
  else .error .Unauthorized

/-- `updateFilteringRule(ruleId, newDomainPattern, newPathPattern, newRuleType)`;
`require(filteringRules[ruleId].timestamp > 0, "Rule not found")`. -/
def updateFilteringRule (sender now ruleId : Nat)
    (newDomainPattern newPathPattern newRuleType : Ciphertext)
    (s : ContractState) : Except PBError ContractState :=
  if onlyMaintainerPasses sender s then
    if (s.filteringRules ruleId).timestamp > 0 then
      .ok { s with
        filteringRules := fun i =>
          if i = ruleId then
            { encryptedDomainPattern := newDomainPattern
              encryptedPathPattern := newPathPattern
              encryptedRuleType := newRuleType
              timestamp := now }
          else s.filteringRules i
        lastUpdateTimestamp := now }
    else .error .RuleNotFound
  else .error .Unauthorized

/-- The rule ids `1, …, ruleCount`, in the ascending order the contract's
loops traverse them. -/
def ruleIds (s : ContractState) : List Nat := List.range' 1 s.ruleCount

/-- The ciphertext payload built by `requestUrlMatching`:
`[encryptedDomain, encryptedPath]` followed by the three ciphertext fields of
every stored rule in ascending id order. -/
def matchingCiphertexts (encryptedDomain encryptedPath : Ciphertext)
    (s : ContractState) : List Nat :=
  toBytes32 encryptedDomain :: toBytes32 encryptedPath ::
    (ruleIds s).flatMap (fun i =>
      [toBytes32 (s.filteringRules i).encryptedDomainPattern,
       toBytes32 (s.filteringRules i).encryptedPathPattern,
       toBytes32 (s.filteringRules i).encryptedRuleType])

/-- `requestUrlMatching(encryptedDomain, encryptedPath)`: builds the payload,
resets the caller's `matchResults` slot to an unprocessed zero result, and
dispatches the payload (the request id returned by `FHE.requestComputation`
is assigned to a local and dropped by the source). Returns the post-state
and the dispatched payload. -/
def requestUrlMatching (sender : Nat) (encryptedDomain encryptedPath : Ciphertext)
    (s : ContractState) : ContractState × List Nat :=
  ({ s with matchResults := fun a =>
      if a = sender then
        { encryptedMatchScore := asEuint32 0
          encryptedShouldBlock := asEbool false
          isProcessed := false }
      else s.matchResults a },
   matchingCiphertexts encryptedDomain encryptedPath s)

/-- `abi.decode(results, (uint32, bool))` over a list of ABI words. -/
def abiDecodeUint32Bool (b : List Nat) : Option (Nat × Bool) :=
  match b with
  | [w1, w2] =>
    if w1 < 2 ^ 32 then
      if w2 = 0 then some (w1, false)
      else if w2 = 1 then some (w1, true)
      else none
    else none
  | _ => none

/-- `abi.decode(cleartexts, (bool))` over a list of ABI words. -/
def abiDecodeBool (b : List Nat) : Option Bool :=
  match b with
  | [w] =>
    if w = 0 then some false
    else if w = 1 then some true
    else none
  | _ => none

/-- `performMatching(requestId, results, proof)`: verifies the proof with
`FHE.checkSignatures` (modelled by the `sigOk` oracle — failure reverts),
decodes `(matchScore, shouldBlock)`, stores a processed `MatchResult` for the
caller and sets the caller's `lastSyncTimestamps` entry to `block.timestamp`.
No stored request id is consulted: the contract records none. -/
def performMatching (sigOk : Nat → List Nat → List Nat → Bool)
    (sender now requestId : Nat) (results proof : List Nat)
    (s : ContractState) : Except PBError ContractState :=
  if sigOk requestId results proof then
    match abiDecodeUint32Bool results with
    | some (matchScore, shouldBlock) =>
      .ok { s with
        matchResults := fun a =>
          if a = sender then
            { encryptedMatchScore := asEuint32 matchScore
              encryptedShouldBlock := asEbool shouldBlock
              isProcessed := true }
          else s.matchResults a
        lastSyncTimestamps := fun a =>
          if a = sender then now else s.lastSyncTimestamps a }
    | none => .error .DecodeError
  else .error .InvalidProof

/-- `getEncryptedMatchResult()`: the caller's stored block-decision
ciphertext, guarded by `require(isProcessed, "Not processed")`. -/
def getEncryptedMatchResult (sender : Nat) (s : ContractState) :
    Except PBError Ciphertext :=
  if (s.matchResults sender).isProcessed then
    .ok (s.matchResults sender).encryptedShouldBlock
  else .error .NotProcessed

/-- `needsUpdate()`: `lastSyncTimestamps[msg.sender] < lastUpdateTimestamp`. -/
def needsUpdate (sender : Nat) (s : ContractState) : Bool :=
  s.lastSyncTimestamps sender < s.lastUpdateTimestamp

/-- The rule ids `getRuleUpdates` selects for a caller: those whose stored
timestamp is strictly above the caller's sync cursor, in ascending order. -/
def updatedIds (sender : Nat) (s : ContractState) : List Nat :=
  (ruleIds s).filter (fun i =>
    s.lastSyncTimestamps sender < (s.filteringRules i).timestamp)

/-- `getRuleUpdates()` (view): the four parallel arrays (domain handles, path
handles, type handles, timestamps) of the selected rules. -/
def getRuleUpdates (sender : Nat) (s : ContractState) :
    List Nat × List Nat × List Nat × List Nat :=
  ((updatedIds sender s).map (fun i => toBytes32 (s.filteringRules i).encryptedDomainPattern),
   (updatedIds sender s).map (fun i => toBytes32 (s.filteringRules i).encryptedPathPattern),
   (updatedIds sender s).map (fun i => toBytes32 (s.filteringRules i).encryptedRuleType),
   (updatedIds sender s).map (fun i => (s.filteringRules i).timestamp))

/-- `requestDecisionDecryption()`: guarded by
`require(isProcessed, "Not processed")`; dispatches the caller's stored
`encryptedShouldBlock` handle for decryption (the request id returned by
`FHE.requestDecryption` is assigned to a local and dropped by the source).
Returns the (unchanged) post-state and the dispatched ciphertext list. -/
def requestDecisionDecryption (sender : Nat) (s : ContractState) :
    Except PBError (ContractState × List Nat) :=
  if (s.matchResults sender).isProcessed then
    .ok (s, [toBytes32 (s.matchResults sender).encryptedShouldBlock])
  else .error .NotProcessed

/-- `decryptDecision(requestId, cleartexts, proof)`: verifies the proof,
decodes the boolean, and discards it — the body ends with a comment and
stores nothing. -/
def decryptDecision (sigOk : Nat → List Nat → List Nat → Bool)
    (requestId : Nat) (cleartexts proof : List Nat)
    (s : ContractState) : Except PBError ContractState :=
  if sigOk requestId cleartexts proof then
    match abiDecodeBool cleartexts with
    | some _ => .ok s
    | none => .error .DecodeError
  else .error .InvalidProof

/-- Modelled from the spec: `acknowledge(clientId, asOf)` (§4.2) is described
by the spec but absent from `src/` — the only source-side write to the sync
cursor is the one inside `performMatching`. Per §4.2 it records the delivered
delta by setting the client's sync cursor to the delta's `asOf` timestamp. -/
def acknowledge (clientId asOf : Nat) (s : ContractState) : ContractState :=
  { s with lastSyncTimestamps := fun a =>
      if a = clientId then asOf else s.lastSyncTimestamps a }

/-- Modelled from the spec: `diffSince(clientId) → (rules changed, asOf)`
(§4.2). The rules part is the source's `getRuleUpdates`; the `asOf` snapshot
timestamp accompanying the delta is absent from `src/` and is taken, per the
spec, as the ledger's `lastUpdateTimestamp` at the time of the diff. -/
def diffSince (clientId : Nat) (s : ContractState) :
    (List Nat × List Nat × List Nat × List Nat) × Nat :=
  (getRuleUpdates clientId s, s.lastUpdateTimestamp)

/-- A ledger mutation: `addFilteringRule` or `updateFilteringRule`, with the
`block.timestamp` of its transaction. -/
inductive LedgerOp where
  | add (now : Nat) (d p r : Ciphertext)
  | upd (now : Nat) (ruleId : Nat) (d p r : Ciphertext)
deriving DecidableEq, Repr

/-- Run one ledger mutation with revert semantics. -/
def applyOp (s : ContractState) (op : LedgerOp) : ContractState :=
  match op with
  | .add now d p r => applyTx s (addFilteringRule 0 now d p r s)
  | .upd now i d p r => applyTx s (updateFilteringRule 0 now i d p r s)

/-- Run a sequence of ledger mutations. -/
def runOps (s : ContractState) (ops : List LedgerOp) : ContractState :=
  ops.foldl applyOp s

/-- The `block.timestamp` of a ledger mutation. -/
def opTime (op : LedgerOp) : Nat :=
  match op with
  | .add now _ _ _ => now
  | .upd now _ _ _ _ => now

/-- Whether a ledger mutation is an `addFilteringRule`. -/
def isAdd (op : LedgerOp) : Bool :=
  match op with
  | .add _ _ _ _ => true
  | .upd _ _ _ _ _ => false

/-- How many mutations of a sequence are `addFilteringRule` calls. -/
def numAdds (ops : List LedgerOp) : Nat := ops.countP isAdd

/-- A proof-verification oracle that accepts everything. -/
def alwaysVerify : Nat → List Nat → List Nat → Bool := fun _ _ _ => true

/-- A proof-verification oracle that rejects everything. -/
def neverVerify : Nat → List Nat → List Nat → Bool := fun _ _ _ => false

/-- Demo ledger: three rules added at timestamps 100, 200, 300. -/
def threeRuleState : ContractState :=
  runOps pbInit [.add 100 11 12 13, .add 200 21 22 23, .add 300 31 32 33]

/-- Demo ledger with client 7's sync cursor at 150. -/
def cursor150State : ContractState :=
  { threeRuleState with lastSyncTimestamps := fun a => if a = 7 then 150 else 0 }

/-- Demo: client 1 has issued `requestUrlMatching` twice in a row, so the
first request is orphaned and only the second is supposed to be live. -/
def staleScenarioState : ContractState :=
  (requestUrlMatching 1 11 12 (requestUrlMatching 1 11 12 pbInit).1).1

/-- Claim C3: a match or decryption callback whose proof fails verification is
rejected with `InvalidProof` and, by revert semantics, mutates no contract
state — in particular the caller's `MatchResult` and sync timestamp are
unchanged — regardless of the payload content. -/
theorem invalidProofRejectsCallbacks
    (sigOk : Nat → List Nat → List Nat → Bool) (sender now requestId : Nat)
    (results proof cleartexts dproof : List Nat) (s : ContractState)
    (hm : sigOk requestId results proof = false)
    (hd : sigOk requestId cleartexts dproof = false) :
    performMatching sigOk sender now requestId results proof s = .error .InvalidProof
    ∧ applyTx s (performMatching sigOk sender now requestId results proof s) = s
    ∧ decryptDecision sigOk requestId cleartexts dproof s = .error .InvalidProof
    ∧ applyTx s (decryptDecision sigOk requestId cleartexts dproof s) = s := by
  simp [performMatching, decryptDecision, applyTx, hm, hd]

theorem invalidProofRejectsCallbacks_witness :
    performMatching neverVerify 1 50 7 [95, 1] [] pbInit = .error .InvalidProof
    ∧ applyTx pbInit (performMatching neverVerify 1 50 7 [95, 1] [] pbInit) = pbInit
    ∧ decryptDecision neverVerify 7 [1] [] pbInit = .error .InvalidProof
    ∧ applyTx pbInit (decryptDecision neverVerify 7 [1] [] pbInit) = pbInit :=
  invalidProofRejectsCallbacks neverVerify 1 50 7 [95, 1] [] [1] [] pbInit rfl rfl

/-- Claim C9: a `decryptDecision` call that passes proof verification leaves
the whole contract state unchanged — the decoded boolean is discarded, no
ticket is consumed, and nothing about the decision is stored. -/
theorem decryptDecisionFrame
    (sigOk : Nat → List Nat → List Nat → Bool) (requestId : Nat)
    (cleartexts proof : List Nat) (s : ContractState)
    (h : sigOk requestId cleartexts proof = true) :
    applyTx s (decryptDecision sigOk requestId cleartexts proof s) = s
    ∧ ∀ s', decryptDecision sigOk requestId cleartexts proof s = .ok s' → s' = s := by
  cases hdec : abiDecodeBool cleartexts with
  | none => simp [decryptDecision, h, hdec, applyTx]
  | some b =>
    refine ⟨by simp [decryptDecision, h, hdec, applyTx], fun s' hs' => ?_⟩
    simpa [decryptDecision, h, hdec] using hs'.symm

theorem decryptDecisionFrame_witness :
    applyTx pbInit (decryptDecision alwaysVerify 7 [1] [] pbInit) = pbInit :=
  (decryptDecisionFrame alwaysVerify 7 [1] [] pbInit rfl).1

/-- Claim C2 (code-bug exhibit): the `onlyMaintainer` modifier's body is
empty — the `require(maintainers[msg.sender], "Unauthorized")` exists only as
a comment — so an arbitrary caller (here address 99, while the contract
tracks no maintainer set at all) successfully adds a rule, mutating
`ruleCount`, and successfully updates it; no `Unauthorized` rejection
exists. -/
theorem nonMaintainerMutationSucceeds :
    isOk (addFilteringRule 99 7 1 2 3 pbInit) = true
    ∧ (applyTx pbInit (addFilteringRule 99 7 1 2 3 pbInit)).ruleCount = 1
    ∧ (applyTx pbInit (addFilteringRule 99 7 1 2 3 pbInit)).lastUpdateTimestamp = 7
    ∧ isOk (updateFilteringRule 99 8 1 4 5 6
        (applyTx pbInit (addFilteringRule 99 7 1 2 3 pbInit))) = true := by
  decide

/-- Claim C1 (code-bug exhibit): the contract records no request id (the
`reqId` returned by `FHE.requestComputation` is dropped), so after client 1
issues two match requests, a late callback carrying the first, orphaned
request's id (1) is accepted whenever its proof verifies: the call succeeds,
marks the client's result processed, and its payload becomes observable
through `getEncryptedMatchResult` — no `StaleRequest` rejection exists. -/
theorem staleCallbackAccepted :
    (staleScenarioState.matchResults 1).isProcessed = false
    ∧ isOk (performMatching alwaysVerify 1 50 1 [95, 1] [] staleScenarioState) = true
    ∧ ((applyTx staleScenarioState
          (performMatching alwaysVerify 1 50 1 [95, 1] [] staleScenarioState)).matchResults 1).isProcessed
        = true
    ∧ getEncryptedMatchResult 1
        (applyTx staleScenarioState
          (performMatching alwaysVerify 1 50 1 [95, 1] [] staleScenarioState))
        = .ok (asEbool true) :=
  ⟨rfl, rfl, rfl, rfl⟩

/-- Claim C4: `getRuleUpdates` selects exactly the rule ids whose stored
timestamp is strictly above the caller's sync cursor (0 when the caller never
synced), in ascending id order, returning their field arrays; it is a view
and takes no state. Instantiated on the spec's example: rules at timestamps
100, 200, 300 and a cursor of 150 yield the rules from 200 and 300 only, in
that order. -/
theorem getRuleUpdatesCharacterization (sender : Nat) (s : ContractState) :
    (∀ i, i ∈ updatedIds sender s ↔
        1 ≤ i ∧ i ≤ s.ruleCount
          ∧ s.lastSyncTimestamps sender < (s.filteringRules i).timestamp)
    ∧ List.Sorted (· < ·) (updatedIds sender s)
    ∧ getRuleUpdates sender s =
        ((updatedIds sender s).map (fun i => toBytes32 (s.filteringRules i).encryptedDomainPattern),
         (updatedIds sender s).map (fun i => toBytes32 (s.filteringRules i).encryptedPathPattern),
         (updatedIds sender s).map (fun i => toBytes32 (s.filteringRules i).encryptedRuleType),
         (updatedIds sender s).map (fun i => (s.filteringRules i).timestamp))
    ∧ getRuleUpdates 7 cursor150State = ([21, 31], [22, 32], [23, 33], [200, 300]) := by
  refine ⟨fun i => ?_, ?_, rfl, by decide⟩
  · simp only [updatedIds, ruleIds, List.mem_filter, List.mem_range'_1,
      decide_eq_true_eq]
    omega
  · exact List.Sorted.filter _ (List.pairwise_lt_range' 1 s.ruleCount)

/-- A list flat-mapped through a three-element builder has three entries per
source element. -/
theorem length_flatMap_triple {α β : Type} (l : List α) (f g h : α → β) :
    (l.flatMap (fun i => [f i, g i, h i])).length = 3 * l.length := by
  induction l with
  | nil => rfl
  | cons x xs ih =>
    simp only [List.flatMap_cons, List.length_append, List.length_cons, List.length_nil, ih]
    omega

/-- Claim C8: the payload `requestUrlMatching` dispatches is
`[encryptedDomain, encryptedPath]` followed by the three ciphertext fields of
every stored rule in ascending id order, hence of length `ruleCount * 3 + 2`. -/
theorem matchingPayloadShape (sender : Nat) (encryptedDomain encryptedPath : Ciphertext)
    (s : ContractState) :
    (requestUrlMatching sender encryptedDomain encryptedPath s).2
      = toBytes32 encryptedDomain :: toBytes32 encryptedPath ::
          (ruleIds s).flatMap (fun i =>
            [toBytes32 (s.filteringRules i).encryptedDomainPattern,
             toBytes32 (s.filteringRules i).encryptedPathPattern,
             toBytes32 (s.filteringRules i).encryptedRuleType])
    ∧ (requestUrlMatching sender encryptedDomain encryptedPath s).2.length
        = s.ruleCount * 3 + 2
    ∧ List.Sorted (· < ·) (ruleIds s) := by
  refine ⟨rfl, ?_, List.pairwise_lt_range' 1 s.ruleCount⟩
  simp only [requestUrlMatching, matchingCiphertexts, List.length_cons,
    length_flatMap_triple, ruleIds, List.length_range']
  omega

/-- Claim C5: after acknowledging the `asOf` snapshot timestamp of a
delivered delta, a repeated diff with no intervening ledger writes is empty.
The hypothesis — every stored rule's timestamp is at most the ledger's
`lastUpdateTimestamp` — holds in every state the ledger operations can
produce (they stamp the touched rule and `lastUpdateTimestamp` with the same
`block.timestamp`). -/
theorem diffAcknowledgeRoundTrip (clientId : Nat) (s : ContractState)
    (hle : ∀ i ∈ ruleIds s, (s.filteringRules i).timestamp ≤ s.lastUpdateTimestamp) :
    getRuleUpdates clientId (acknowledge clientId (diffSince clientId s).2 s)
      = ([], [], [], []) := by
  have hnil : updatedIds clientId (acknowledge clientId (diffSince clientId s).2 s) = [] := by
    simp only [updatedIds]
    refine List.filter_eq_nil_iff.mpr ?_
    intro i hi
    have h1 : (s.filteringRules i).timestamp ≤ s.lastUpdateTimestamp :=
      hle i (by simpa [ruleIds, acknowledge] using hi)
    simp [acknowledge, diffSince]
    omega
  simp [getRuleUpdates, hnil]

theorem diffAcknowledgeRoundTrip_witness :
    getRuleUpdates 7 (acknowledge 7 (diffSince 7 threeRuleState).2 threeRuleState)
      = ([], [], [], []) :=
  diffAcknowledgeRoundTrip 7 threeRuleState (by decide)

/-- Claim C6: `requestDecisionDecryption` fails with `NotProcessed` unless the
caller's match result is processed; once `performMatching` has completed for
the caller, it succeeds and dispatches exactly the `encryptedShouldBlock`
ciphertext that callback stored. -/
theorem requestDecryptionGating (sender : Nat) (s : ContractState) :
    ((s.matchResults sender).isProcessed = false →
        requestDecisionDecryption sender s = .error .NotProcessed)
    ∧ ∀ (sigOk : Nat → List Nat → List Nat → Bool) (now requestId : Nat)
        (results proof : List Nat) (s' : ContractState),
        performMatching sigOk sender now requestId results proof s = .ok s' →
          (s'.matchResults sender).isProcessed = true
          ∧ requestDecisionDecryption sender s'
              = .ok (s', [toBytes32 (s'.matchResults sender).encryptedShouldBlock]) := by
  constructor
  · intro h
    simp [requestDecisionDecryption, h]
  · intro sigOk now requestId results proof s' hok
    unfold performMatching at hok
    split at hok
    · split at hok
      · simp only [Except.ok.injEq] at hok
        subst hok
        refine ⟨by simp, ?_⟩
        simp [requestDecisionDecryption]
      · exact absurd hok (by simp)
    · exact absurd hok (by simp)

theorem requestDecryptionGating_witness :
    requestDecisionDecryption 1 pbInit = .error .NotProcessed
    ∧ ((applyTx pbInit (performMatching alwaysVerify 1 50 7 [95, 1] [] pbInit)).matchResults 1).isProcessed
        = true :=
  ⟨(requestDecryptionGating 1 pbInit).1 rfl,
   ((requestDecryptionGating 1 pbInit).2 alwaysVerify 50 7 [95, 1] []
      (applyTx pbInit (performMatching alwaysVerify 1 50 7 [95, 1] [] pbInit)) rfl).1⟩

/-- Claim C10: a successful `performMatching` stamps the caller's
`lastSyncTimestamps` entry with the callback's `block.timestamp`; hence a
subsequent `getRuleUpdates` for that caller selects only rules stamped
strictly after that moment, and — absent later ledger writes, i.e. while
`lastUpdateTimestamp` is at most that moment — `needsUpdate` is `false`,
although the caller never fetched or acknowledged those rule deltas. -/
theorem performMatchingAdvancesSync
    (sigOk : Nat → List Nat → List Nat → Bool) (sender now requestId : Nat)
    (results proof : List Nat) (s s' : ContractState)
    (hok : performMatching sigOk sender now requestId results proof s = .ok s') :
    s'.lastSyncTimestamps sender = now
    ∧ (∀ i ∈ updatedIds sender s', now < (s'.filteringRules i).timestamp)
    ∧ s'.lastUpdateTimestamp = s.lastUpdateTimestamp
    ∧ (s.lastUpdateTimestamp ≤ now → needsUpdate sender s' = false) := by
  unfold performMatching at hok
  split at hok
  · split at hok
    · simp only [Except.ok.injEq] at hok
      subst hok
      refine ⟨by simp, ?_, rfl, ?_⟩
      · intro i hi
        simp only [updatedIds, List.mem_filter, decide_eq_true_eq] at hi
        have := hi.2
        simp only [] at this ⊢
        simpa using this
      · intro hle
        simp only [needsUpdate]
        simp only [decide_eq_false_iff_not, not_lt]
        simpa using hle
    · exact absurd hok (by simp)
  · exact absurd hok (by simp)

theorem performMatchingAdvancesSync_witness :
    (applyTx threeRuleState
        (performMatching alwaysVerify 1 400 7 [95, 1] [] threeRuleState)).lastSyncTimestamps 1
      = 400 :=
  (performMatchingAdvancesSync alwaysVerify 1 400 7 [95, 1] [] threeRuleState
    (applyTx threeRuleState (performMatching alwaysVerify 1 400 7 [95, 1] [] threeRuleState))
    rfl).1

/-- `updateFilteringRule` never changes `ruleCount`, whether it succeeds or
reverts with `RuleNotFound`. -/
theorem applyOp_upd_ruleCount (s : ContractState) (now ruleId : Nat)
    (d p r : Ciphertext) :
    (applyOp s (.upd now ruleId d p r)).ruleCount = s.ruleCount := by
  by_cases h : 0 < (s.filteringRules ruleId).timestamp
  · simp [applyOp, updateFilteringRule, onlyMaintainerPasses, h, applyTx]
  · simp [applyOp, updateFilteringRule, onlyMaintainerPasses, h, applyTx]

/-- `ruleCount` after a sequence of ledger mutations grows by exactly the
number of `addFilteringRule` calls in it. -/
theorem runOps_ruleCount (ops : List LedgerOp) (s : ContractState) :
    (runOps s ops).ruleCount = s.ruleCount + numAdds ops := by
  induction ops generalizing s with
  | nil => rfl
  | cons op ops ih =>
    have hstep : runOps s (op :: ops) = runOps (applyOp s op) ops := rfl
    rw [hstep, ih]
    cases op with
    | add now d p r =>
      simp [numAdds, List.countP_cons, isAdd, applyOp, addFilteringRule,
        onlyMaintainerPasses, applyTx]
      omega
    | upd now i d p r =>
      rw [applyOp_upd_ruleCount]
      simp [numAdds, List.countP_cons, isAdd]

/-- The contract's rule-existence test (`timestamp > 0`) holds exactly on the
dense id range `1 … ruleCount`. -/
def idsDense (s : ContractState) : Prop :=
  ∀ i, 0 < (s.filteringRules i).timestamp ↔ 1 ≤ i ∧ i ≤ s.ruleCount

/-- One ledger mutation with a positive `block.timestamp` preserves dense id
assignment. -/
theorem idsDense_applyOp (s : ContractState) (op : LedgerOp)
    (hpos : 0 < opTime op) (hs : idsDense s) : idsDense (applyOp s op) := by
  cases op with
  | add now d p r =>
    simp only [opTime] at hpos
    intro i
    simp only [applyOp, addFilteringRule, onlyMaintainerPasses, if_true, applyTx]
    by_cases hi : i = s.ruleCount + 1
    · subst hi
      simp [hpos]
    · simp only [hi, if_false]
      rw [hs i]
      omega
  | upd now j d p r =>
    simp only [opTime] at hpos
    intro i
    simp only [applyOp, updateFilteringRule, onlyMaintainerPasses, if_true, applyTx]
    by_cases hj : 0 < (s.filteringRules j).timestamp
    · have hrange := (hs j).mp hj
      simp only [gt_iff_lt, hj, if_true]
      by_cases hi : i = j
      · subst hi
        simp only [if_true, reduceIte]
        constructor
        · intro _
          exact hrange
        · intro _
          exact hpos
      · simp only [hi, if_false, reduceIte]
        exact hs i
    · simp only [gt_iff_lt, hj, if_false]
      exact hs i

/-- A sequence of ledger mutations with positive `block.timestamp`s preserves
dense id assignment. -/
theorem idsDense_runOps : ∀ (ops : List LedgerOp) (s : ContractState),
    (∀ op ∈ ops, 0 < opTime op) → idsDense s → idsDense (runOps s ops)
  | [], _, _, hs => hs
  | op :: ops, s, hpos, hs =>
    idsDense_runOps ops (applyOp s op)
      (fun o ho => hpos o (List.mem_cons_of_mem _ ho))
      (idsDense_applyOp s op (hpos op (List.mem_cons_self _ _)) hs)

/-- Claim C7: from the deployed state, any sequence of `addFilteringRule`
calls (all of which succeed) with arbitrarily interleaved
`updateFilteringRule` calls, all at positive block timestamps, yields
`ruleCount = N` for `N` additions, with the existing rule ids being exactly
`{1 … N}` — dense, starting at 1, never reused, `ruleCount` always the
highest assigned id — while an update changes no id and never changes
`ruleCount`. -/
theorem addRuleIdsDense (ops : List LedgerOp)
    (hpos : ∀ op ∈ ops, 0 < opTime op) :
    (runOps pbInit ops).ruleCount = numAdds ops
    ∧ (∀ i, 0 < ((runOps pbInit ops).filteringRules i).timestamp ↔
          1 ≤ i ∧ i ≤ numAdds ops)
    ∧ ∀ (s : ContractState) (now ruleId : Nat) (d p r : Ciphertext),
        (applyOp s (.upd now ruleId d p r)).ruleCount = s.ruleCount := by
  have h1 : (runOps pbInit ops).ruleCount = numAdds ops := by
    rw [runOps_ruleCount]
    simp [pbInit]
  have h2 : idsDense (runOps pbInit ops) := by
    refine idsDense_runOps ops pbInit hpos ?_
    intro i
    simp [pbInit, zeroRule]
    omega
  refine ⟨h1, fun i => ?_, fun s now ruleId d p r => applyOp_upd_ruleCount s now ruleId d p r⟩
  have := h2 i
  rw [h1] at this
  exact this

theorem addRuleIdsDense_witness :
    (runOps pbInit [.add 100 1 1 1, .upd 150 1 9 9 9, .add 200 2 2 2]).ruleCount
      = numAdds [.add 100 1 1 1, .upd 150 1 9 9 9, .add 200 2 2 2] :=
  (addRuleIdsDense [.add 100 1 1 1, .upd 150 1 9 9 9, .add 200 2 2 2] (by decide)).1
